import Mathlib

/-!
Verification development for the Fudomo transformation run orchestrator
(an Atom package driving model-to-text transformations).  The definitions
below are a shallow embedding of the orchestrator source (the module that
exports `runTransformationConfigFile`, the post-process registries, the
auto-transform file watcher and the skeleton generator entry points).
External collaborators (the transform engine, the model loader, the file
system, the runner registry) are represented by oracle parameters.
-/

namespace Fudomo

/-- Model of the JavaScript string path helper: joining a directory with a
relative child path, as Atom `Directory.getFile` does for relative paths. -/
def joinPath (dir rel : String) : String := dir ++ "/" ++ rel

/-- Split a character list at every occurrence of a separator character. -/
def splitOnChar (c : Char) : List Char → List (List Char)
  | [] => [[]]
  | x :: xs =>
    match splitOnChar c xs with
    | [] => [[]]
    | y :: ys => if x = c then [] :: y :: ys else (x :: y) :: ys

/-- Split a string at every occurrence of a separator character. -/
def splitString (c : Char) (s : String) : List String :=
  (splitOnChar c s.data).map String.mk

/-- Join path segments with slashes. -/
def joinSlash : List String → String
  | [] => ""
  | [x] => x
  | x :: xs => x ++ "/" ++ joinSlash xs

/-- Directory part of a path: everything before the last slash. -/
def dirname (p : String) : String :=
  joinSlash (splitString '/' p).dropLast

/-- Model of `path.extname(p).slice(1)` from Node: the extension of the last
path segment without the leading dot; empty when the last segment has no dot
or only a leading dot. -/
def extnameNoDot (p : String) : String :=
  let base := (splitString '/' p).getLastD ""
  match splitString '.' base with
  | [] => ""
  | [_] => ""
  | first :: rest => if first = "" ∧ rest.length = 1 then "" else rest.getLastD ""

/-- A parsed configuration document: the key/value fields read from the YAML
configuration file by `runTransformationConfigFile`.  A `none` field is a key
absent from the document. -/
structure ConfigDoc where
  decomposition : Option String
  functions : Option String
  data : Option String
  output : Option String
  runnerId : Option String
  postprocess : Option String
deriving DecidableEq, Repr

/-- The message thrown in `runTransformationConfigFile` when a mandatory
configuration attribute is absent. -/
def missingAttrMsg (attr : String) : String :=
  "Fudomo transformation config file error: \"" ++ attr ++ "\" attribute not set."

/-- The value of a required configuration key by name. -/
def keyValue (c : ConfigDoc) (k : String) : Option String :=
  if k = "decomposition" then c.decomposition
  else if k = "functions" then c.functions
  else if k = "data" then c.data
  else if k = "output" then c.output
  else none

/-- The `phase` variable of `runTransformationConfigFile`: either a `Phase`
object carrying an activity and an openable path, or a plain string (the
source assigns a bare string at the decomposition-read and output-write
steps). -/
inductive PhaseVal
  | phase (activity : String) (openablePath : Option String)
  | str (s : String)
deriving DecidableEq, Repr

/-- A thrown JavaScript error as seen by `handleTransformError`: either a
plain `Error` or a `FudomoComputeException`. -/
inductive JsError
  | plain (message : String)
  | fudomoComputeException (message : String)
deriving DecidableEq, Repr

/-- A user-visible Atom notification produced by the orchestrator:
`success` is `showSuccess` (optional Open target), `errorDetail` is
`showError` (detail text, optional Open target), `errorExcerpts` is the
direct `atom.notifications.addError` call that renders definition errors as
a markdown description with an Open button, `computeException` is
`showFudomoComputeException`. -/
inductive Notification
  | success (message : String) (openPath : Option String)
  | errorDetail (message : String) (detail : String) (openPath : Option String)
  | errorExcerpts (message : String) (descriptionMd : String) (openPath : String)
  | computeException (message : String)
deriving DecidableEq, Repr

/-- The Open-action target of a notification, when it has one. -/
def Notification.openAction : Notification → Option String
  | .success _ p => p
  | .errorDetail _ _ p => p
  | .errorExcerpts _ _ p => some p
  | .computeException _ => none

/-- Model of `getTransformationErrorsAsMarkDown`: each parse error excerpt is
fenced between tilde lines. -/
def getTransformationErrorsAsMarkDown (excerpts : List String) : String :=
  excerpts.foldl (fun acc e => acc ++ "~~~~\n" ++ e ++ "\n~~~~\n") ""

/-- Model of `handleTransformError(error, phase, projectPath)`: a
`FudomoComputeException` is rendered by `showFudomoComputeException`;
otherwise the activity and openable path are taken from `phase` when it is a
`Phase` object (a plain-string phase yields no openable path), and
`showError` is called with an Open button exactly when an openable path is
present. -/
def handleTransformError (error : JsError) (phase : PhaseVal) : Notification :=
  match error with
  | .fudomoComputeException m => .computeException m
  | .plain m =>
    let activity := match phase with
      | .phase a _ => a
      | .str s => s
    let openablePath := match phase with
      | .phase _ p => p
      | .str _ => none
    match openablePath with
    | some p =>
        .errorDetail ("Error while " ++ activity)
          ("Error: " ++ m ++ "\nStack trace:\nError: " ++ m) (some p)
    | none => .errorDetail ("Error while " ++ activity) ("Error: " ++ m) none

/-- Model of the runner-class selection in `runTransformationConfigFile`
(the registry lookups `getRunnerClassById` / `getRunnerClassByFileExtension`
are oracle functions `byId` / `byExt` returning the identity of the runner
class, `none` when no backend matches).  An explicit id `javascript`, or an
absent id with a `js` functions-file extension, is substituted by the
sandboxed `javascriptvm` backend. -/
def selectRunnerClass (byId byExt : String → Option String)
    (runnerId : Option String) (functionsPath : String) : Option String :=
  match runnerId with
  | some rid =>
    if rid = "javascript" then byId "javascriptvm"
    else byId rid
  | none =>
    let extension := extnameNoDot functionsPath
    if extension = "js" then byId "javascriptvm"
    else byExt extension

/-- The message thrown when no runner class resolves: it carries the
configured runner id when one was given, the functions-file extension
otherwise. -/
def runnerNotFoundMsg (runnerId : Option String) (functionsPath : String) : String :=
  match runnerId with
  | some rid =>
      "Can not find decomposition function runner class with id \"" ++ rid ++ "\"."
  | none =>
      "Can not find decomposition function runner class for file extension \"" ++
        extnameNoDot functionsPath ++ "\"."

/-- Outcome of the external transformation engine run. -/
inductive TransformFailure
  | computeException (message : String)
  | plain (message : String)
deriving DecidableEq, Repr

/-- Oracle for the external collaborators consulted during one run: the
model loader, the decomposition file read, the decomposition parser, the
transformation engine and the output write. -/
structure Engine where
  modelLoad : Except String Unit
  decompSource : Option String
  parseHasError : Bool
  parseErrorExcerpts : List String
  transformResult : Except TransformFailure String
  writeOk : Bool
  writeErrMsg : String

/-- Observable effects of one `runTransformationConfigFile` invocation:
whether the transformation engine was invoked, whether the output file was
written, the working directory passed to `child_process.exec` when a
post-process child was launched, and the notifications raised on the
synchronous path. -/
structure RunEffects where
  ranTransform : Bool
  wroteOutput : Bool
  postprocCwd : Option String
  notifications : List Notification
deriving DecidableEq, Repr

/-- Effects of a run that failed before running the transformation. -/
def errEffects (n : Notification) : RunEffects :=
  { ranTransform := false, wroteOutput := false, postprocCwd := none,
    notifications := [n] }

/-- Shallow embedding of the body of `runTransformationConfigFile` after the
configuration document has been parsed from YAML: mandatory-attribute
checks, model load, decomposition read, runner selection, decomposition
parse, transformation run, output write, and the hand-off to the
post-process launch (whose `cwd` is recorded).  `configDir` is
`baseDir.getPath()`, the directory of the configuration file. -/
def runTransformationConfigFile (configFilePath configDir : String)
    (config : ConfigDoc) (byId byExt : String → Option String)
    (eng : Engine) (notifyOnSuccess : Bool) : RunEffects :=
  let phase := PhaseVal.phase "parsing config file" (some configFilePath)
  match config.decomposition with
  | none => errEffects (handleTransformError (.plain (missingAttrMsg "decomposition")) phase)
  | some decompPath =>
  match config.functions with
  | none => errEffects (handleTransformError (.plain (missingAttrMsg "functions")) phase)
  | some funcPath =>
  match config.data with
  | none => errEffects (handleTransformError (.plain (missingAttrMsg "data")) phase)
  | some dataPath =>
  match config.output with
  | none => errEffects (handleTransformError (.plain (missingAttrMsg "output")) phase)
  | some outputPath =>
  let dataFilePath := joinPath configDir dataPath
  let phase := PhaseVal.phase ("loading data from \"" ++ dataPath ++ "\"") (some dataFilePath)
  match eng.modelLoad with
  | .error msg => errEffects (handleTransformError (.plain msg) phase)
  | .ok _ =>
  let phase := PhaseVal.str "loading decomposition file"
  match eng.decompSource with
  | none => errEffects (handleTransformError (.plain "Decomposition file not found.") phase)
  | some _ =>
  let phase := PhaseVal.phase "creating decomposition function runner" (some configFilePath)
  match selectRunnerClass byId byExt config.runnerId funcPath with
  | none => errEffects (handleTransformError (.plain (runnerNotFoundMsg config.runnerId funcPath)) phase)
  | some _ =>
  if eng.parseHasError then
    { ranTransform := false, wroteOutput := false, postprocCwd := none,
      notifications := [Notification.errorExcerpts
        ("Could not parse Fudomo decomposition definition from \"" ++ decompPath ++ "\"")
        (getTransformationErrorsAsMarkDown eng.parseErrorExcerpts)
        (joinPath configDir decompPath)] }
  else
    let phase := PhaseVal.phase ("running Fudomo transformation " ++ decompPath)
      (some (joinPath configDir decompPath))
    match eng.transformResult with
    | .error (.computeException m) =>
      { ranTransform := true, wroteOutput := false, postprocCwd := none,
        notifications := [handleTransformError (.fudomoComputeException m) phase] }
    | .error (.plain m) =>
      { ranTransform := true, wroteOutput := false, postprocCwd := none,
        notifications := [handleTransformError (.plain m) phase] }
    | .ok _ =>
      let phase := PhaseVal.str
        ("writing Fudomo transformation result to destination file \"" ++ outputPath ++ "\"")
      if eng.writeOk then
        match config.postprocess with
        | some _ =>
          { ranTransform := true, wroteOutput := true, postprocCwd := some configDir,
            notifications := [] }
        | none =>
          { ranTransform := true, wroteOutput := true, postprocCwd := none,
            notifications :=
              if notifyOnSuccess then
                [Notification.success
                  ("Result of Fudomo transformation \"" ++ decompPath ++
                    "\" successfully written to \"" ++ outputPath ++ "\".")
                  (some (joinPath configDir outputPath))]
              else [] }
      else
        { ranTransform := true, wroteOutput := false, postprocCwd := none,
          notifications := [handleTransformError (.plain eng.writeErrMsg) phase] }

/-- Modelled from the spec: the resolved output directory of a
configuration, the directory containing the output file after resolving the
output path against the configuration directory.  Used only to compare the
working directory the source actually passes to the post-process child
against the directory the spec names. -/
def specOutputDir (configDir outputPath : String) : String :=
  dirname (joinPath configDir outputPath)

/-! Post-process lifecycle: the module-level registries
`runningPostprocessors` (a map whose comment says the key is the absolute
path of the config file, and whose value is a pid) and
`killedPostprocessors` (a set of pids deliberately killed), together with
the launch block inside `runTransformationConfigFile` and the exit callback
passed to `child_process.exec`. -/

/-- Lookup in an association list keyed by strings. -/
def lookupA (m : List (String × Nat)) (k : String) : Option Nat :=
  match m with
  | [] => none
  | (k₂, v) :: rest => if k₂ = k then some v else lookupA rest k

/-- Remove every entry for a key from an association list. -/
def removeA (m : List (String × Nat)) (k : String) : List (String × Nat) :=
  m.filter (fun e => e.1 ≠ k)

/-- Overwrite the entry for a key in an association list. -/
def setA (m : List (String × Nat)) (k : String) (v : Nat) : List (String × Nat) :=
  (k, v) :: removeA m k

/-- The property key actually used to index `runningPostprocessors` in the
source.  The index expression is `path`, which in the scope of
`runTransformationConfigFile` is the imported Node `path` module object, not
the configuration file path; as a JavaScript property key the module object
stringifies to the same text for every configuration.  The configuration
path therefore never influences the key. -/
def registryKey (_configFilePath : String) : String := "[object Object]"

/-- The process-wide post-process bookkeeping state: the running map and the
killed-pid set. -/
structure PPState where
  runningPostprocessors : List (String × Nat)
  killedPostprocessors : List Nat
deriving DecidableEq, Repr

/-- The empty initial bookkeeping state. -/
def PPState.initial : PPState := { runningPostprocessors := [], killedPostprocessors := [] }

/-- Result of the launch block: the updated state and the pid passed to
`treeKill` (killing the process and its descendant tree), when any. -/
structure LaunchResult where
  state : PPState
  treeKilledPid : Option Nat
deriving DecidableEq, Repr

/-- Shallow embedding of the post-process launch block of
`runTransformationConfigFile`: when the registry already holds a pid under
the lookup key, that pid is added to `killedPostprocessors` and passed to
`treeKill` with SIGKILL; then the new child is started and its pid is
registered. -/
def launchPostprocess (s : PPState) (configFilePath : String) (childPid : Nat) :
    LaunchResult :=
  let key := registryKey configFilePath
  match lookupA s.runningPostprocessors key with
  | some pid =>
    { state :=
        { runningPostprocessors := setA s.runningPostprocessors key childPid,
          killedPostprocessors := pid :: s.killedPostprocessors },
      treeKilledPid := some pid }
  | none =>
    { state :=
        { runningPostprocessors := setA s.runningPostprocessors key childPid,
          killedPostprocessors := s.killedPostprocessors },
      treeKilledPid := none }

/-- Result of the exit callback: the updated state and the notification
shown, when any. -/
structure ExitResult where
  state : PPState
  notified : Option Notification
deriving DecidableEq, Repr

/-- Shallow embedding of the `child_process.exec` exit callback: on success
a success notification is shown when `notifyOnSuccess` holds; on failure the
error is swallowed (and the pid cleared from the killed set) when the pid
was recorded as deliberately killed, and reported otherwise; in every case
the registry entry under the lookup key is deleted. -/
def onPostprocessExit (s : PPState) (configFilePath : String) (childPid : Nat)
    (exitOk : Bool) (notifyOnSuccess : Bool) (decompPath outputPath : String)
    (stderrOrStdout dataFilePath : String) : ExitResult :=
  let key := registryKey configFilePath
  let running₂ := removeA s.runningPostprocessors key
  if exitOk then
    { state := { s with runningPostprocessors := running₂ },
      notified :=
        if notifyOnSuccess then
          some (.success
            ("Result of Fudomo transformation \"" ++ decompPath ++
              "\" successfully written to \"" ++ outputPath ++ "\" and post-processed.")
            none)
        else none }
  else
    if childPid ∈ s.killedPostprocessors then
      { state :=
          { runningPostprocessors := running₂,
            killedPostprocessors := s.killedPostprocessors.erase childPid },
        notified := none }
    else
      { state := { s with runningPostprocessors := running₂ },
        notified := some (.errorDetail
          ("Error post-processing result of Fudomo transformation \"" ++ decompPath ++ "\".")
          stderrOrStdout (some dataFilePath)) }

/-! Auto-transform watcher: the `atom.project.onDidChangeFiles` handler in
`activate`, which maps resolved data-file paths of the registered
configurations to config paths, then re-runs every configuration whose data
file appears in a created/modified/renamed event. -/

/-- Outcome of reading and resolving one registered configuration path in
the watcher loop: skipped because not in an open project, skipped because
the file read returned null, resolved to the real path of its data file, or
failed with an error (unreadable or invalid configuration, failing path
resolution), which is reported and does not stop the loop. -/
inductive ConfigResolution
  | notInProject
  | unreadable
  | resolved (dataAbsPath : String)
  | failed (errMsg : String)
deriving DecidableEq, Repr

/-- Lookup in the data-path map (a JavaScript object keyed by resolved data
file path, holding the set of config paths depending on it). -/
def lookupMap (m : List (String × List String)) (k : String) : Option (List String) :=
  match m with
  | [] => none
  | (k₂, v) :: rest => if k₂ = k then some v else lookupMap rest k

/-- Add a config path to the set registered under a resolved data-file path,
creating the entry when absent. -/
def addToDataMap (m : List (String × List String)) (dataAbsPath configPath : String) :
    List (String × List String) :=
  match m with
  | [] => [(dataAbsPath, [configPath])]
  | (k, v) :: rest =>
    if k = dataAbsPath then (k, v ++ [configPath]) :: rest
    else (k, v) :: addToDataMap rest dataAbsPath configPath

/-- The first loop of the change handler: fold over the registered
configuration paths, building the data-path map and accumulating the
Auto-Transform error notifications of the configurations that failed to
resolve. -/
def buildDataMap (resolve : String → ConfigResolution)
    (acc : List (String × List String) × List Notification) :
    List String → List (String × List String) × List Notification
  | [] => acc
  | c :: rest =>
    match resolve c with
    | .resolved d => buildDataMap resolve (addToDataMap acc.1 d c, acc.2) rest
    | .failed msg =>
        buildDataMap resolve
          (acc.1, acc.2 ++ [.errorDetail "Error running Auto Transform" msg none]) rest
    | _ => buildDataMap resolve acc rest

/-- A file-system change event action, as delivered by
`atom.project.onDidChangeFiles`. -/
inductive FileAction
  | created
  | modified
  | renamed
  | deleted
deriving DecidableEq, Repr

/-- A file-system change event. -/
structure FileEvent where
  action : FileAction
  path : String
deriving DecidableEq, Repr

/-- Whether an event action triggers auto-transform re-runs. -/
def triggersRerun : FileAction → Bool
  | .created => true
  | .modified => true
  | .renamed => true
  | .deleted => false

/-- The second loop of the change handler: for every triggering event, look
up the configurations registered under the event path and re-run each with
success notifications disabled.  The result lists the
`runTransformationConfigFile` invocations as pairs of config path and
`notifyOnSuccess` flag. -/
def eventRuns (m : List (String × List String)) : List FileEvent → List (String × Bool)
  | [] => []
  | e :: rest =>
    if triggersRerun e.action then
      (match lookupMap m e.path with
       | some cs => cs.map (fun c => (c, false))
       | none => []) ++ eventRuns m rest
    else eventRuns m rest

/-- The whole `onDidChangeFiles` handler over a batch of events: build the
data-path map from the registry (each configuration resolved independently,
failures reported and skipped), then compute the re-run invocations.
Returns the error notifications of the first loop and the re-runs of the
second. -/
def onDidChangeFiles (resolve : String → ConfigResolution)
    (registry : List String) (events : List FileEvent) :
    List Notification × List (String × Bool) :=
  let built := buildDataMap resolve ([], []) registry
  (built.2, eventRuns built.1 events)

/-! Skeleton generation: the destination-file-name loop of
`generateFunctionsForDecompositionFile`. -/

/-- The `dedupSuffix` loop variable: the empty string initially, a number
afterwards. -/
inductive DedupSuffix
  | empty
  | num (n : Nat)
deriving DecidableEq, Repr

/-- The string form of the suffix, as `String(dedupSuffix)` produces. -/
def DedupSuffix.str : DedupSuffix → String
  | .empty => ""
  | .num n => toString n

/-- The destination file name built from the decomposition base name, a
dedup suffix string and the generator language extension. -/
def destName (filenameNoExt : String) (suffix : String) (extension : String) : String :=
  filenameNoExt ++ "_functions" ++ suffix ++ "." ++ extension

/-- Shallow embedding of the while loop choosing the destination file: while
the candidate exists, promote an empty suffix to 2, rebuild the candidate
from the current suffix, then increment the suffix.  `fuel` bounds the
number of iterations (the source loop runs unboundedly); `none` means the
fuel ran out. -/
def chooseDestLoop (existsFile : String → Bool) (filenameNoExt extension : String) :
    Nat → DedupSuffix → String → Option String
  | 0, _, _ => none
  | fuel + 1, dedupSuffix, destFile =>
    if existsFile destFile then
      let s₁ := match dedupSuffix with
        | .empty => DedupSuffix.num 2
        | s => s
      let destFile₂ := destName filenameNoExt s₁.str extension
      let s₂ := match s₁ with
        | .num n => DedupSuffix.num (n + 1)
        | .empty => DedupSuffix.empty
      chooseDestLoop existsFile filenameNoExt extension fuel s₂ destFile₂
    else some destFile

/-- The destination file chosen by `generateFunctionsForDecompositionFile`
for a decomposition file whose base name without the `.fudomo` extension is
`filenameNoExt`: starting from the suffix-free candidate, the loop advances
while the candidate exists. -/
def chooseDestFile (existsFile : String → Bool) (filenameNoExt extension : String)
    (fuel : Nat) : Option String :=
  chooseDestLoop existsFile filenameNoExt extension fuel .empty
    (destName filenameNoExt "" extension)

/-- The suffix string of the candidate at a given index: empty first, then
the numbers from 2 up. -/
def candSuffixStr : Nat → String
  | 0 => ""
  | n + 1 => toString (n + 2)

/-- The candidate sequence the loop walks: the suffix-free name first, then
the names numbered from 2 up. -/
def destCandidate (filenameNoExt extension : String) (n : Nat) : String :=
  destName filenameNoExt (candSuffixStr n) extension

/-- The value of the `dedupSuffix` loop variable on entry to iteration `k`
of the destination-name loop. -/
def stateSuffix : Nat → DedupSuffix
  | 0 => .empty
  | k + 1 => .num (k + 3)

/-! Helper lemmas on the association-list operations. -/

/-- Overwriting a key makes lookup return the new value. -/
theorem lookupA_setA (m : List (String × Nat)) (k : String) (v : Nat) :
    lookupA (setA m k v) k = some v := by
  simp [setA, lookupA]

/-- After removing a key, no entry for it remains. -/
theorem not_mem_removeA (m : List (String × Nat)) (k : String) (p : Nat) :
    (k, p) ∉ removeA m k := by
  simp [removeA, List.mem_filter]

/-- C1: launching a post-process for a configuration that still has a
registered running child first passes that child's pid to `treeKill`,
records it in the killed set, and registers the new child as the only entry
under the configuration's registry key; the superseded child's subsequent
failure exit produces no notification. -/
theorem launchPostprocess_supersedes (s : PPState) (configFilePath : String)
    (prevPid newPid : Nat)
    (h : lookupA s.runningPostprocessors (registryKey configFilePath) = some prevPid) :
    (launchPostprocess s configFilePath newPid).treeKilledPid = some prevPid ∧
    prevPid ∈ (launchPostprocess s configFilePath newPid).state.killedPostprocessors ∧
    lookupA (launchPostprocess s configFilePath newPid).state.runningPostprocessors
      (registryKey configFilePath) = some newPid ∧
    (∀ p, (registryKey configFilePath, p) ∈
        (launchPostprocess s configFilePath newPid).state.runningPostprocessors →
        p = newPid) ∧
    (∀ notifyOnSuccess dp op serr dfp,
      (onPostprocessExit (launchPostprocess s configFilePath newPid).state
        configFilePath prevPid false notifyOnSuccess dp op serr dfp).notified = none) := by
  refine ⟨?_, ?_, ?_, ?_, ?_⟩
  · simp [launchPostprocess, h]
  · simp [launchPostprocess, h]
  · simp [launchPostprocess, h, lookupA_setA]
  · intro p hp
    simp only [launchPostprocess, h] at hp
    rcases List.mem_cons.mp hp with he | hm
    · exact (Prod.mk.injEq _ _ _ _ ▸ he).2
    · exact absurd hm (not_mem_removeA _ _ _)
  · intro notifyOnSuccess dp op serr dfp
    simp [onPostprocessExit, launchPostprocess, h]

/-- Witness for C1: with pid 100 registered (under the shared registry key)
and a new child with pid 200 launched for the same configuration, pid 100 is
tree-killed and recorded as deliberately killed, and its failure exit is
silent. -/
theorem launchPostprocess_supersedes_witness :
    (launchPostprocess ⟨[("[object Object]", 100)], []⟩ "/projects/demo/t.config" 200).treeKilledPid
        = some 100 ∧
    100 ∈ (launchPostprocess ⟨[("[object Object]", 100)], []⟩
        "/projects/demo/t.config" 200).state.killedPostprocessors ∧
    (onPostprocessExit (launchPostprocess ⟨[("[object Object]", 100)], []⟩
        "/projects/demo/t.config" 200).state "/projects/demo/t.config" 100 false true
        "d.fudomo" "out.txt" "killed" "/projects/demo/m.yaml").notified = none := by
  have h := launchPostprocess_supersedes ⟨[("[object Object]", 100)], []⟩
    "/projects/demo/t.config" 100 200 (by decide)
  exact ⟨h.1, h.2.1, h.2.2.2.2 true "d.fudomo" "out.txt" "killed" "/projects/demo/m.yaml"⟩

/-- C2: launching a post-process for one configuration kills the live child
registered for a different configuration: the registry index is the `path`
module object, one shared key for every configuration, so the
kill-before-launch step targets whatever child is registered, regardless of
configuration identity.  Here configuration B's launch tree-kills the child
(pid 100) of the distinct configuration A. -/
theorem launchPostprocess_crossConfig_kill :
    ("/projects/a/first.config" : String) ≠ "/projects/b/second.config" ∧
    (launchPostprocess
        (launchPostprocess PPState.initial "/projects/a/first.config" 100).state
        "/projects/b/second.config" 200).treeKilledPid = some 100 := by
  decide

/-- C5: an explicit runner id of javascript, or an absent runner id with a
functions file of extension js, always selects the runner class looked up
under the sandboxed javascriptvm id, never the native javascript backend. -/
theorem javascript_runner_is_sandboxed (byId byExt : String → Option String)
    (runnerId : Option String) (functionsPath : String)
    (h : runnerId = some "javascript" ∨
         (runnerId = none ∧ extnameNoDot functionsPath = "js")) :
    selectRunnerClass byId byExt runnerId functionsPath = byId "javascriptvm" := by
  rcases h with h | ⟨h₁, h₂⟩
  · subst h; simp [selectRunnerClass]
  · subst h₁; simp [selectRunnerClass, h₂]

/-- Witness for C5: both trigger conditions, evaluated on a registry that
returns the looked-up id itself. -/
theorem javascript_runner_is_sandboxed_witness :
    selectRunnerClass (fun i => some i) (fun e => some e) none "decomp_functions.js"
        = some "javascriptvm" ∧
    selectRunnerClass (fun i => some i) (fun e => some e) (some "javascript") "f.py"
        = some "javascriptvm" :=
  ⟨javascript_runner_is_sandboxed _ _ _ _ (Or.inr ⟨rfl, by decide⟩),
   javascript_runner_is_sandboxed _ _ _ _ (Or.inl rfl)⟩

/-- C4: when any of the four mandatory configuration keys is absent, the run
fails in the config-parsing phase with an error whose thrown message names a
key that is indeed absent, and the transformation is neither executed nor
the output written. -/
theorem missingKey_configError (configFilePath configDir : String) (config : ConfigDoc)
    (byId byExt : String → Option String) (eng : Engine) (notify : Bool)
    (h : config.decomposition = none ∨ config.functions = none ∨
         config.data = none ∨ config.output = none) :
    ∃ k, keyValue config k = none ∧
      (∃ pre post, missingAttrMsg k = pre ++ k ++ post) ∧
      runTransformationConfigFile configFilePath configDir config byId byExt eng notify =
        errEffects (handleTransformError (.plain (missingAttrMsg k))
          (.phase "parsing config file" (some configFilePath))) ∧
      (runTransformationConfigFile configFilePath configDir config byId byExt eng
        notify).ranTransform = false ∧
      (runTransformationConfigFile configFilePath configDir config byId byExt eng
        notify).wroteOutput = false := by
  obtain ⟨d, f, da, o, rid, pp⟩ := config
  cases d with
  | none =>
    refine ⟨"decomposition", by simp [keyValue], ⟨_, _, rfl⟩, ?_, ?_, ?_⟩ <;>
      simp [runTransformationConfigFile, errEffects]
  | some dv =>
    cases f with
    | none =>
      refine ⟨"functions", ?_, ⟨_, _, rfl⟩, ?_, ?_, ?_⟩
      · rw [keyValue, if_neg (by decide), if_pos rfl]
      all_goals simp [runTransformationConfigFile, errEffects]
    | some fv =>
      cases da with
      | none =>
        refine ⟨"data", ?_, ⟨_, _, rfl⟩, ?_, ?_, ?_⟩
        · rw [keyValue, if_neg (by decide), if_neg (by decide), if_pos rfl]
        all_goals simp [runTransformationConfigFile, errEffects]
      | some dav =>
        cases o with
        | none =>
          refine ⟨"output", ?_, ⟨_, _, rfl⟩, ?_, ?_, ?_⟩
          · rw [keyValue, if_neg (by decide), if_neg (by decide), if_neg (by decide),
              if_pos rfl]
          all_goals simp [runTransformationConfigFile, errEffects]
        | some ov =>
          simp at h

/-- Witness for C4: a configuration lacking the data key fails in the
config-parsing phase naming a missing key. -/
theorem missingKey_configError_witness :
    ∃ k, keyValue ⟨some "d.fudomo", some "f.js", none, some "out.txt", none, none⟩ k
          = none ∧
      (∃ pre post, missingAttrMsg k = pre ++ k ++ post) ∧
      runTransformationConfigFile "/proj/t.config" "/proj"
          ⟨some "d.fudomo", some "f.js", none, some "out.txt", none, none⟩
          (fun _ => none) (fun _ => none)
          ⟨.ok (), none, false, [], .ok "", false, ""⟩ true =
        errEffects (handleTransformError (.plain (missingAttrMsg k))
          (.phase "parsing config file" (some "/proj/t.config"))) ∧
      (runTransformationConfigFile "/proj/t.config" "/proj"
          ⟨some "d.fudomo", some "f.js", none, some "out.txt", none, none⟩
          (fun _ => none) (fun _ => none)
          ⟨.ok (), none, false, [], .ok "", false, ""⟩ true).ranTransform = false ∧
      (runTransformationConfigFile "/proj/t.config" "/proj"
          ⟨some "d.fudomo", some "f.js", none, some "out.txt", none, none⟩
          (fun _ => none) (fun _ => none)
          ⟨.ok (), none, false, [], .ok "", false, ""⟩ true).wroteOutput = false :=
  missingKey_configError "/proj/t.config" "/proj" _ _ _ _ _
    (Or.inr (Or.inr (Or.inl rfl)))

/-- C6: when every mandatory key is present, the model loads and the
decomposition file is read, but no runner class resolves, the run fails in
the runner-creation phase with an error whose thrown message contains the
configured runner id when one was given and the functions-file extension
otherwise, and the output is not written. -/
theorem runnerNotFound_effects (configFilePath configDir : String) (config : ConfigDoc)
    (byId byExt : String → Option String) (eng : Engine) (notify : Bool)
    (dp fp da op src : String)
    (hdp : config.decomposition = some dp) (hfp : config.functions = some fp)
    (hda : config.data = some da) (hop : config.output = some op)
    (hml : eng.modelLoad = Except.ok ()) (hds : eng.decompSource = some src)
    (hrn : selectRunnerClass byId byExt config.runnerId fp = none) :
    runTransformationConfigFile configFilePath configDir config byId byExt eng notify =
      errEffects (handleTransformError (.plain (runnerNotFoundMsg config.runnerId fp))
        (.phase "creating decomposition function runner" (some configFilePath))) ∧
    (runTransformationConfigFile configFilePath configDir config byId byExt eng
      notify).ranTransform = false ∧
    (runTransformationConfigFile configFilePath configDir config byId byExt eng
      notify).wroteOutput = false ∧
    (∀ rid, config.runnerId = some rid →
      ∃ pre post, runnerNotFoundMsg config.runnerId fp = pre ++ rid ++ post) ∧
    (config.runnerId = none →
      ∃ pre post, runnerNotFoundMsg config.runnerId fp = pre ++ extnameNoDot fp ++ post) := by
  refine ⟨?_, ?_, ?_, ?_, ?_⟩
  · simp [runTransformationConfigFile, hdp, hfp, hda, hop, hml, hds, hrn]
  · simp [runTransformationConfigFile, hdp, hfp, hda, hop, hml, hds, hrn, errEffects]
  · simp [runTransformationConfigFile, hdp, hfp, hda, hop, hml, hds, hrn, errEffects]
  · intro rid hrid; rw [hrid]; exact ⟨_, _, rfl⟩
  · intro hrid; rw [hrid]; exact ⟨_, _, rfl⟩

/-- Witness for C6: a nonexistent runner id makes the run fail in the
runner-creation phase with the id in the message and no output write. -/
theorem runnerNotFound_effects_witness :
    runTransformationConfigFile "/proj/t.config" "/proj"
        ⟨some "d.fudomo", some "f.js", some "m.yaml", some "out.txt", some "bogus", none⟩
        (fun _ => none) (fun _ => none)
        ⟨.ok (), some "Root.f: x", false, [], .ok "", true, ""⟩ true =
      errEffects (handleTransformError (.plain (runnerNotFoundMsg (some "bogus") "f.js"))
        (.phase "creating decomposition function runner" (some "/proj/t.config"))) ∧
    (runTransformationConfigFile "/proj/t.config" "/proj"
        ⟨some "d.fudomo", some "f.js", some "m.yaml", some "out.txt", some "bogus", none⟩
        (fun _ => none) (fun _ => none)
        ⟨.ok (), some "Root.f: x", false, [], .ok "", true, ""⟩ true).wroteOutput = false ∧
    (∃ pre post, runnerNotFoundMsg (some "bogus") "f.js" = pre ++ "bogus" ++ post) := by
  have h := runnerNotFound_effects "/proj/t.config" "/proj"
    ⟨some "d.fudomo", some "f.js", some "m.yaml", some "out.txt", some "bogus", none⟩
    (fun _ => none) (fun _ => none)
    ⟨.ok (), some "Root.f: x", false, [], .ok "", true, ""⟩ true
    "d.fudomo" "f.js" "m.yaml" "out.txt" "Root.f: x" rfl rfl rfl rfl rfl rfl rfl
  exact ⟨h.1, h.2.2.1, h.2.2.2.1 "bogus" rfl⟩

/-- C7: when the decomposition source parses with definition errors, the
transformation is never executed and the output never written; the only
notification is the formatted excerpt list with an action opening the
decomposition file, produced directly rather than through the pipeline
error handler. -/
theorem parseError_stops_run (configFilePath configDir : String) (config : ConfigDoc)
    (byId byExt : String → Option String) (eng : Engine) (notify : Bool)
    (dp fp da op src rc : String)
    (hdp : config.decomposition = some dp) (hfp : config.functions = some fp)
    (hda : config.data = some da) (hop : config.output = some op)
    (hml : eng.modelLoad = Except.ok ()) (hds : eng.decompSource = some src)
    (hrn : selectRunnerClass byId byExt config.runnerId fp = some rc)
    (hpe : eng.parseHasError = true) :
    runTransformationConfigFile configFilePath configDir config byId byExt eng notify =
      { ranTransform := false, wroteOutput := false, postprocCwd := none,
        notifications := [Notification.errorExcerpts
          ("Could not parse Fudomo decomposition definition from \"" ++ dp ++ "\"")
          (getTransformationErrorsAsMarkDown eng.parseErrorExcerpts)
          (joinPath configDir dp)] } := by
  simp [runTransformationConfigFile, hdp, hfp, hda, hop, hml, hds, hrn, hpe]

/-- Witness for C7: a run whose decomposition has one definition error stops
with the excerpt notification and touches neither engine nor output. -/
theorem parseError_stops_run_witness :
    runTransformationConfigFile "/proj/t.config" "/proj"
        ⟨some "d.fudomo", some "f.js", some "m.yaml", some "out.txt", some "js2", none⟩
        (fun _ => some "Runner") (fun _ => some "Runner")
        ⟨.ok (), some "Root.f: x", true, ["unexpected token"], .ok "", true, ""⟩ true =
      { ranTransform := false, wroteOutput := false, postprocCwd := none,
        notifications := [Notification.errorExcerpts
          ("Could not parse Fudomo decomposition definition from \"" ++ "d.fudomo" ++ "\"")
          (getTransformationErrorsAsMarkDown ["unexpected token"])
          (joinPath "/proj" "d.fudomo")] } :=
  parseError_stops_run "/proj/t.config" "/proj" _ _ _ _ true
    "d.fudomo" "f.js" "m.yaml" "out.txt" "Root.f: x" "Runner"
    rfl rfl rfl rfl rfl rfl rfl rfl

/-- Counterexample to C3 as stated: with output sub/out.txt under config
directory /proj, the post-process child is started with working directory
/proj (the config directory), while the resolved output directory is
/proj/sub — a different directory. -/
theorem postprocess_cwd_counterexample :
    (runTransformationConfigFile "/proj/t.config" "/proj"
        ⟨some "d.fudomo", some "f.js", some "m.yaml", some "sub/out.txt",
          some "myrunner", some "make all"⟩
        (fun _ => some "Runner") (fun _ => some "Runner")
        ⟨.ok (), some "Root.f: x", false, [], .ok "text", true, ""⟩ true).postprocCwd
      = some "/proj" ∧
    specOutputDir "/proj" "sub/out.txt" = "/proj/sub" ∧
    ("/proj" : String) ≠ "/proj/sub" := by
  decide

/-- C3 amended: the post-process child is started with its working directory
set to the configuration file's directory (the base directory), not to the
directory of the resolved output path; the two coincide only when the output
path names a file directly in the base directory. -/
theorem postprocess_cwd_is_configDir (configFilePath configDir : String)
    (config : ConfigDoc) (byId byExt : String → Option String) (eng : Engine)
    (notify : Bool) (dp fp da op cmd src rc res : String)
    (hdp : config.decomposition = some dp) (hfp : config.functions = some fp)
    (hda : config.data = some da) (hop : config.output = some op)
    (hml : eng.modelLoad = Except.ok ()) (hds : eng.decompSource = some src)
    (hrn : selectRunnerClass byId byExt config.runnerId fp = some rc)
    (hpe : eng.parseHasError = false)
    (htr : eng.transformResult = Except.ok res)
    (hw : eng.writeOk = true)
    (hpp : config.postprocess = some cmd) :
    (runTransformationConfigFile configFilePath configDir config byId byExt eng
      notify).postprocCwd = some configDir := by
  simp [runTransformationConfigFile, hdp, hfp, hda, hop, hml, hds, hrn, hpe, htr,
    hw, hpp]

/-- Witness for the amended C3: a successful run with a post-process command
launches the child with the config directory as working directory. -/
theorem postprocess_cwd_is_configDir_witness :
    (runTransformationConfigFile "/work/t.config" "/work"
        ⟨some "d.fudomo", some "f.js", some "m.yaml", some "out.txt",
          some "myrunner", some "echo hi"⟩
        (fun _ => some "Runner") (fun _ => some "Runner")
        ⟨.ok (), some "Root.f: x", false, [], .ok "text", true, ""⟩ true).postprocCwd
      = some "/work" :=
  postprocess_cwd_is_configDir "/work/t.config" "/work" _ _ _ _ true
    "d.fudomo" "f.js" "m.yaml" "out.txt" "echo hi" "Root.f: x" "Runner" "text"
    rfl rfl rfl rfl rfl rfl rfl rfl rfl rfl rfl

/-- Counterexample to C8 as stated: at a concrete run whose output write
fails, the single error notification carries no open action at all, so in
particular none targeting the output path. -/
theorem writeFailure_counterexample :
    (runTransformationConfigFile "/proj/t.config" "/proj"
        ⟨some "d.fudomo", some "f.js", some "m.yaml", some "out.txt",
          some "myrunner", none⟩
        (fun _ => some "Runner") (fun _ => some "Runner")
        ⟨.ok (), some "Root.f: x", false, [], .ok "text", false, "disk full"⟩
        true).notifications.map Notification.openAction = [none] := by
  decide

/-- C8 amended: a failure writing the produced text is reported through the
generic error handler with an activity description that names the output
path, but with no open-file action: the phase at the write step is a plain
string, so the report carries no openable context. -/
theorem writeFailure_reported_without_openable (configFilePath configDir : String)
    (config : ConfigDoc) (byId byExt : String → Option String) (eng : Engine)
    (notify : Bool) (dp fp da op src rc res : String)
    (hdp : config.decomposition = some dp) (hfp : config.functions = some fp)
    (hda : config.data = some da) (hop : config.output = some op)
    (hml : eng.modelLoad = Except.ok ()) (hds : eng.decompSource = some src)
    (hrn : selectRunnerClass byId byExt config.runnerId fp = some rc)
    (hpe : eng.parseHasError = false)
    (htr : eng.transformResult = Except.ok res)
    (hw : eng.writeOk = false) :
    runTransformationConfigFile configFilePath configDir config byId byExt eng notify =
      { ranTransform := true, wroteOutput := false, postprocCwd := none,
        notifications := [Notification.errorDetail
          ("Error while " ++
            ("writing Fudomo transformation result to destination file \"" ++ op ++ "\""))
          ("Error: " ++ eng.writeErrMsg) none] } := by
  simp [runTransformationConfigFile, hdp, hfp, hda, hop, hml, hds, hrn, hpe, htr,
    hw, handleTransformError]

/-- Witness for the amended C8: a concrete failed write yields exactly the
open-action-free error notification. -/
theorem writeFailure_reported_without_openable_witness :
    runTransformationConfigFile "/proj/t.config" "/proj"
        ⟨some "d.fudomo", some "f.js", some "m.yaml", some "out.txt",
          some "myrunner", none⟩
        (fun _ => some "Runner") (fun _ => some "Runner")
        ⟨.ok (), some "Root.f: x", false, [], .ok "text", false, "disk full"⟩ true =
      { ranTransform := true, wroteOutput := false, postprocCwd := none,
        notifications := [Notification.errorDetail
          ("Error while " ++
            ("writing Fudomo transformation result to destination file \"" ++ "out.txt"
              ++ "\""))
          ("Error: " ++ "disk full") none] } :=
  writeFailure_reported_without_openable "/proj/t.config" "/proj" _ _ _ _ true
    "d.fudomo" "f.js" "m.yaml" "out.txt" "Root.f: x" "Runner" "text"
    rfl rfl rfl rfl rfl rfl rfl rfl rfl rfl

/-- One unfolding of the destination-name loop, expressed on the candidate
sequence: from iteration state `k` the loop returns candidate `k` when it
does not exist, and otherwise proceeds to iteration state `k + 1`. -/
theorem chooseDestLoop_step (ef : String → Bool) (fn ext : String) (fuel k : Nat) :
    chooseDestLoop ef fn ext (fuel + 1) (stateSuffix k) (destCandidate fn ext k) =
      if ef (destCandidate fn ext k) then
        chooseDestLoop ef fn ext fuel (stateSuffix (k + 1)) (destCandidate fn ext (k + 1))
      else some (destCandidate fn ext k) := by
  cases k with
  | zero => rfl
  | succ k => rfl

/-- The destination-name loop, started at iteration state `k`, returns the
first non-existing candidate at index at least `k`. -/
theorem chooseDestLoop_spec (ef : String → Bool) (fn ext : String) :
    ∀ (fuel k : Nat) (d : String),
      chooseDestLoop ef fn ext fuel (stateSuffix k) (destCandidate fn ext k) = some d →
      ef d = false ∧ ∃ n, k ≤ n ∧ d = destCandidate fn ext n ∧
        ∀ m, k ≤ m → m < n → ef (destCandidate fn ext m) = true := by
  intro fuel
  induction fuel with
  | zero => intro k d h; simp [chooseDestLoop] at h
  | succ fuel ih =>
    intro k d h
    rw [chooseDestLoop_step] at h
    by_cases hk : ef (destCandidate fn ext k) = true
    · rw [if_pos hk] at h
      obtain ⟨hd, n, hkn, hdn, hall⟩ := ih (k + 1) d h
      refine ⟨hd, n, by omega, hdn, ?_⟩
      intro m hm₁ hm₂
      rcases Nat.eq_or_lt_of_le hm₁ with he | hl
      · rw [← he]; exact hk
      · exact hall m hl hm₂
    · rw [if_neg hk] at h
      have hd := Option.some.inj h
      subst hd
      simp only [Bool.not_eq_true] at hk
      exact ⟨hk, k, Nat.le_refl k, rfl, fun m hm₁ hm₂ => absurd hm₂ (by omega)⟩

/-- C10: the destination file chosen by skeleton generation, when the loop
terminates within its fuel, is the first name in the candidate sequence
(base, then numbered from 2 up) that does not exist at selection time; in
particular it never names an existing file. -/
theorem generateFunctions_dest_is_first_free (ef : String → Bool)
    (fn ext : String) (fuel : Nat) (d : String)
    (h : chooseDestFile ef fn ext fuel = some d) :
    ef d = false ∧ ∃ n, d = destCandidate fn ext n ∧
      ∀ m, m < n → ef (destCandidate fn ext m) = true := by
  obtain ⟨hd, n, _, hdn, hall⟩ := chooseDestLoop_spec ef fn ext fuel 0 d h
  exact ⟨hd, n, hdn, fun m hm => hall m (Nat.zero_le m) hm⟩

/-- Witness for C10: with abc_functions.js and abc_functions2.js existing,
the loop selects abc_functions3.js, which does not exist, and every earlier
candidate exists. -/
theorem generateFunctions_dest_is_first_free_witness :
    (fun s => decide (s = "abc_functions.js" ∨ s = "abc_functions2.js"))
        "abc_functions3.js" = false ∧
    ∃ n, "abc_functions3.js" = destCandidate "abc" "js" n ∧
      ∀ m, m < n →
        (fun s => decide (s = "abc_functions.js" ∨ s = "abc_functions2.js"))
          (destCandidate "abc" "js" m) = true :=
  generateFunctions_dest_is_first_free
    (fun s => decide (s = "abc_functions.js" ∨ s = "abc_functions2.js"))
    "abc" "js" 5 "abc_functions3.js" (by decide)

/-- Adding a config path under a data path makes it a member of the entry
looked up under that data path. -/
theorem lookupMap_addToDataMap_self (m : List (String × List String)) (d c : String) :
    ∃ l, lookupMap (addToDataMap m d c) d = some l ∧ c ∈ l := by
  induction m with
  | nil => exact ⟨[c], by simp [addToDataMap, lookupMap]⟩
  | cons kv rest ih =>
    obtain ⟨k, v⟩ := kv
    by_cases hk : k = d
    · subst hk
      exact ⟨v ++ [c], by simp [addToDataMap, lookupMap]⟩
    · obtain ⟨l, hl, hc⟩ := ih
      exact ⟨l, by simp [addToDataMap, hk, lookupMap, hl], hc⟩

/-- Membership in a data-map entry is preserved by later additions. -/
theorem lookupMap_addToDataMap_preserve (d c d₂ c₂ : String) (l : List String)
    (hc : c ∈ l) :
    ∀ m, lookupMap m d = some l →
      ∃ l₂, lookupMap (addToDataMap m d₂ c₂) d = some l₂ ∧ c ∈ l₂ := by
  intro m
  induction m with
  | nil => intro hl; simp [lookupMap] at hl
  | cons kv rest ih =>
    obtain ⟨k, v⟩ := kv
    intro hl
    by_cases hk₂ : k = d₂
    · subst hk₂
      by_cases hkd : k = d
      · subst hkd
        simp only [lookupMap, if_pos rfl] at hl
        refine ⟨v ++ [c₂], by simp [addToDataMap, lookupMap], ?_⟩
        exact List.mem_append_left _ (Option.some.inj hl ▸ hc)
      · simp only [lookupMap, if_neg hkd] at hl
        exact ⟨l, by simp [addToDataMap, lookupMap, hkd, hl], hc⟩
    · by_cases hkd : k = d
      · subst hkd
        simp [lookupMap] at hl
        exact ⟨l, by simp [addToDataMap, hk₂, lookupMap, hl], hc⟩
      · simp only [lookupMap, if_neg hkd] at hl
        obtain ⟨l₂, hl₂, hc₂⟩ := ih hl
        exact ⟨l₂, by simp [addToDataMap, hk₂, lookupMap, hkd, hl₂], hc₂⟩

/-- Building the data map over the registry: a configuration that resolves
to a data path ends up registered under that data path, whatever the other
registered configurations do (including failing). -/
theorem buildDataMap_mem (resolve : String → ConfigResolution) (d c : String) :
    ∀ (registry : List String) (acc : List (String × List String) × List Notification),
      ((∃ l, lookupMap acc.1 d = some l ∧ c ∈ l) ∨
        (c ∈ registry ∧ resolve c = .resolved d)) →
      ∃ l, lookupMap (buildDataMap resolve acc registry).1 d = some l ∧ c ∈ l := by
  intro registry
  induction registry with
  | nil =>
    intro acc h
    rcases h with h | ⟨hc, _⟩
    · simpa [buildDataMap] using h
    · simp at hc
  | cons c₀ rest ih =>
    intro acc h
    cases hres : resolve c₀ with
    | resolved d₀ =>
      simp only [buildDataMap, hres]
      apply ih
      rcases h with ⟨l, hl, hc⟩ | ⟨hcm, hcr⟩
      · exact Or.inl (lookupMap_addToDataMap_preserve d c d₀ c₀ l hc acc.1 hl)
      · rcases List.mem_cons.mp hcm with rfl | hmem
        · rw [hres] at hcr
          injection hcr with hd
          subst hd
          exact Or.inl (lookupMap_addToDataMap_self acc.1 d₀ c)
        · exact Or.inr ⟨hmem, hcr⟩
    | failed msg =>
      simp only [buildDataMap, hres]
      apply ih
      rcases h with h | ⟨hcm, hcr⟩
      · exact Or.inl h
      · rcases List.mem_cons.mp hcm with rfl | hmem
        · rw [hres] at hcr; exact absurd hcr (by simp)
        · exact Or.inr ⟨hmem, hcr⟩
    | notInProject =>
      simp only [buildDataMap, hres]
      apply ih
      rcases h with h | ⟨hcm, hcr⟩
      · exact Or.inl h
      · rcases List.mem_cons.mp hcm with rfl | hmem
        · rw [hres] at hcr; exact absurd hcr (by simp)
        · exact Or.inr ⟨hmem, hcr⟩
    | unreadable =>
      simp only [buildDataMap, hres]
      apply ih
      rcases h with h | ⟨hcm, hcr⟩
      · exact Or.inl h
      · rcases List.mem_cons.mp hcm with rfl | hmem
        · rw [hres] at hcr; exact absurd hcr (by simp)
        · exact Or.inr ⟨hmem, hcr⟩

/-- Every triggering event whose path is registered in the data map yields a
silent re-run of every configuration registered under it. -/
theorem eventRuns_mem (m : List (String × List String)) (c : String) :
    ∀ (events : List FileEvent) (e : FileEvent), e ∈ events →
      triggersRerun e.action = true →
      ∀ l, lookupMap m e.path = some l → c ∈ l →
      (c, false) ∈ eventRuns m events := by
  intro events
  induction events with
  | nil => intro e he; simp at he
  | cons e₀ rest ih =>
    intro e he htrig l hl hc
    rcases List.mem_cons.mp he with rfl | hmem
    · simp only [eventRuns, if_pos htrig, hl]
      exact List.mem_append_left _ (List.mem_map_of_mem _ hc)
    · have hrec := ih e hmem htrig l hl hc
      by_cases ht : triggersRerun e₀.action = true
      · simp only [eventRuns, if_pos ht]
        exact List.mem_append_right _ hrec
      · simp only [eventRuns, if_neg ht]
        exact hrec

/-- C9: any configuration registered in the auto-transform registry whose
data file resolves to the path of a created, modified or renamed event in
the batch is re-run with success notifications suppressed, and this holds
whatever the resolution outcome of every other registered configuration,
failures included. -/
theorem autoTransform_reruns_matching (resolve : String → ConfigResolution)
    (registry : List String) (events : List FileEvent) (c d : String) (e : FileEvent)
    (hc : c ∈ registry) (hr : resolve c = .resolved d)
    (he : e ∈ events) (ha : triggersRerun e.action = true) (hp : e.path = d) :
    (c, false) ∈ (onDidChangeFiles resolve registry events).2 := by
  obtain ⟨l, hl, hcl⟩ :=
    buildDataMap_mem resolve d c registry ([], []) (Or.inr ⟨hc, hr⟩)
  exact eventRuns_mem _ c events e he ha l (by rw [hp]; exact hl) hcl

/-- Witness for C9: one registered configuration fails to resolve, the
other resolves to the changed data file and is silently re-run anyway. -/
theorem autoTransform_reruns_matching_witness :
    ("/p/b.config", false) ∈ (onDidChangeFiles
      (fun p => if p = "/p/a.config" then .failed "invalid YAML"
        else if p = "/p/b.config" then .resolved "/p/data.yaml"
        else .notInProject)
      ["/p/a.config", "/p/b.config"]
      [⟨FileAction.modified, "/p/data.yaml"⟩]).2 :=
  autoTransform_reruns_matching _ _ _ "/p/b.config" "/p/data.yaml"
    ⟨FileAction.modified, "/p/data.yaml"⟩ (by decide) (by decide) (by decide) rfl rfl

end Fudomo
